import Mathlib

/-!
Verification of the coroutine-runtime core of the `chiya` repository.

Each Rust function that a claim depends on is embedded as an executable Lean
definition over `Nat` (machine `usize` arithmetic is modelled with explicit
`% 2 ^ 64` where wrap-around matters).  Stateful code becomes explicit state
passing; fallible code returns `Option`.  File and line references in the doc
comments point into the repository sources.
-/

set_option maxRecDepth 8000

namespace Chiya

/-- Modulus of `usize` arithmetic (64-bit targets). -/
def USIZE : Nat := 2 ^ 64

/-! ### Cancel (src/coroutine/src/cancel.rs)

`CancelImpl` keeps one atomic `state : usize`: bit 0 is the cancel-request
bit, the higher bits are a disable-nesting counter (each `disable_cancel`
adds 2, each `enable_cancel` subtracts 2, both wrapping). -/

/-- One state-mutating operation on a `CancelImpl`'s `state` word. -/
inductive CancelOp where
  | cancel
  | disableCancel
  | enableCancel
  deriving DecidableEq, Repr

/-- Effect of one operation on the `state` word (cancel.rs):
`cancel` is `fetch_or(1)`, `disable_cancel` is `fetch_add(2)`,
`enable_cancel` is `fetch_sub(2)`, all wrapping `usize` updates. -/
def cancelStep (s : Nat) : CancelOp → Nat
  | .cancel => s ||| 1
  | .disableCancel => (s + 2) % USIZE
  | .enableCancel => (s + (USIZE - 2)) % USIZE

/-- Run a sequence of operations on a `CancelImpl` starting from state `s`
(a fresh instance starts at `0`). -/
def cancelRun (s : Nat) (ops : List CancelOp) : Nat := ops.foldl cancelStep s

/-- CancelImpl::is_cancelled (cancel.rs:72-75): `state == 1`. -/
def is_cancelled (s : Nat) : Bool := s == 1

/-- CancelImpl::is_disabled (cancel.rs): `state >= 2`. -/
def is_disabled (s : Nat) : Bool := decide (2 ≤ s)

/-- Balanced disable/enable suffix: only `disableCancel`/`enableCancel`
operations, never more enables than disables so far, and an equal number of
each overall (`d` is the number of disables currently pending). -/
def balancedFrom (d : Nat) : List CancelOp → Bool
  | [] => d == 0
  | CancelOp.disableCancel :: l => balancedFrom (d + 1) l
  | CancelOp.enableCancel :: l => decide (0 < d) && balancedFrom (d - 1) l
  | CancelOp.cancel :: _ => false

/-! ### Stack allocation (src/coroutine/src/stack/sys_stack.rs, stack/unix/mod.rs) -/

/-- SysStack (sys_stack.rs): the two bounds of a stack mapping, as byte
addresses.  The stack grows downwards from `top`; `len = top - bottom`. -/
structure SysStack where
  top : Nat
  bottom : Nat
  deriving DecidableEq, Repr

/-- SysStack::len (sys_stack.rs): `top - bottom`. -/
def SysStack.len (s : SysStack) : Nat := s.top - s.bottom

/-- min_stack_size (stack/unix/mod.rs): one page. -/
def min_stack_size (P : Nat) : Nat := P

/-- Size arithmetic of SysStack::allocate (sys_stack.rs:46-74), returning the
total mmap length, or `none` when `checked_add` overflows or the result
exceeds `max_stack_size` `M`.  The Rust mask `!(page_size - 1)` equals
`USIZE - P` for any page size `P ≥ 1`. -/
def alloc_len (P M : Nat) (size : Nat) (prot : Bool) : Option Nat :=
  let add := P <<< (if prot then 1 else 0)
  let size1 := if size < min_stack_size P then min_stack_size P else size
  let size2 := Nat.land (size1 - 1) (USIZE - P)
  if size2 + add < USIZE then
    if size2 + add ≤ M then some (size2 + add) else none
  else none

/-- Protection state of one byte of the address space. -/
inductive MemProt where
  | unmapped
  | noAccess
  | readWrite
  deriving DecidableEq, Repr

/-- allocate_stack (stack/unix/mod.rs:57-73): mmap of `len` read/write bytes;
with the kernel placing the mapping at base `b`, the returned `SysStack` is
`⟨b + len, b⟩`. -/
def allocate_stack (b len : Nat) : SysStack := ⟨b + len, b⟩

/-- Protection of address `a` right after `allocate_stack b len`. -/
def mmap_prot (b len : Nat) (a : Nat) : MemProt :=
  if b ≤ a ∧ a < b + len then .readWrite else .unmapped

/-- protect_stack (stack/unix/mod.rs:74-94): mprotect the lowest page of the
mapping to PROT_NONE and return the bounds above the guard. -/
def protect_stack (P : Nat) (stk : SysStack) : SysStack := ⟨stk.top, stk.bottom + P⟩

/-- Protection of address `a` after `allocate_stack b len` followed by
`protect_stack` (the lowest page of the mapping becomes inaccessible). -/
def protect_prot (P b len : Nat) (a : Nat) : MemProt :=
  if b ≤ a ∧ a < b + P then .noAccess else mmap_prot b len a

/-- SysStack::allocate (sys_stack.rs:46-74) composed with the unix layer:
size arithmetic, mmap at base `b`, then the guard-page protection when
`prot` is set. -/
def sys_allocate (P M size : Nat) (prot : Bool) (b : Nat) : Option SysStack :=
  (alloc_len P M size prot).map fun len =>
    if prot then protect_stack P (allocate_stack b len) else allocate_stack b len

/-! ### Stack bookkeeping (src/coroutine/src/stack/mod.rs) -/

/-- Stack::get_offset (stack/mod.rs:90-93): `(top as *mut usize).offset(1)`,
i.e. the byte address `top + 8`. -/
def get_offset_addr (stk : SysStack) : Nat := stk.top + 8

/-- The byte address of the 8-byte word `Stack::new` writes with `*offset = 1`
(stack/mod.rs:43). -/
def stack_new_offset_write (stk : SysStack) : Nat := get_offset_addr stk

/-- Membership in the stack's allocated region plus its guard page: the whole
mapping `[b, b + len)` returned by the allocation. -/
def in_alloc_and_guard (b len a : Nat) : Prop := b ≤ a ∧ a < b + len

/-- The `usize` word produced by `ptr::write_bytes(_, 0xEE, _)` on one word
(stack/mod.rs:38 and 55). -/
def SENTINEL : Nat := 0xEEEEEEEEEEEEEEEE

/-- The sentinel pre-write of Stack::new (stack/mod.rs:20-47) over the usable
region, viewed as a list of words from the bottom (`mem` is the region's
prior contents, `mem.length` is the capacity `stack.size()`).  `track` is
`(size & 1) != 0`; a tracked stack is fully pre-written, otherwise only the
lowest 8 words are. -/
def stack_new_mem (size : Nat) (mem : List Nat) : List Nat :=
  let track := (size &&& 1) != 0
  let count := if track then mem.length else 8
  List.replicate count SENTINEL ++ mem.drop count

/-- Result of the `get_used_size` scan: either the loop met a non-sentinel
word inside the region and the function returns `capacity - offset`, or every
region word equals the sentinel and the loop's next dereference is the word
one past the region — at the stack's top, outside the mapping. -/
inductive ScanResult where
  | ok (used : Nat)
  | oobRead
  deriving DecidableEq, Repr

/-- Stack::get_used_size (stack/mod.rs:49-70): scan words upward from the
bottom while `*ptr == magic`.  The loop has no capacity bound, so it
terminates inside the region only when some word differs from the sentinel;
when the whole region is sentinel it dereferences the word at the region's
top instead of returning. -/
def get_used_size (mem : List Nat) : ScanResult :=
  if (mem.takeWhile (fun w => w == SENTINEL)).length = mem.length then
    ScanResult.oobRead
  else
    ScanResult.ok (mem.length - (mem.takeWhile (fun w => w == SENTINEL)).length)

/-- Byte address of the `idx`-th word dereferenced by the `get_used_size`
scan, which starts at `bottom` and advances one 8-byte word at a time. -/
def scan_read_addr (bottom idx : Nat) : Nat := bottom + 8 * idx

/-! ### Park (src/coroutine/src/park.rs) and ThreadPark (sync/thread_park.rs) -/

/-- ThreadPark::unpark (thread_park.rs): under the mutex, if the guard value
is 0 set it to 1 and notify.  Returns (new guard, notified?). -/
def tp_unpark (g : Nat) : Nat × Bool := if g = 0 then (1, true) else (g, false)

/-- ThreadPark::park_timeout (thread_park.rs:22-55) entry behaviour: the wait
loop runs only while the guard is 0, and the guard is cleared on exit.
Returns (new guard, returned-without-blocking?). -/
def tp_park (g : Nat) : Nat × Bool := (0, decide (g ≠ 0))

/-- Apply `n` successive `tp_unpark` calls from guard `g`; returns the final
guard and the number of wakes (notifications) performed. -/
def tp_unparks : Nat → Nat → Nat × Nat
  | 0, g => (g, 0)
  | n + 1, g =>
    let r := tp_unpark g
    let rest := tp_unparks n r.1
    (rest.1, rest.2 + if r.2 then 1 else 0)

/-- Park::unpark (park.rs:59-77): `state.swap(true)`; the wake runs only when
the swap returned `false`.  Returns (new state, wake performed?). -/
def park_unpark (st : Bool) : Bool × Bool := (true, !st)

/-- Apply `n` successive `park_unpark` calls from ready-state `st`; returns
the final state and the number of wakes performed. -/
def park_unparks : Nat → Bool → Bool × Nat
  | 0, st => (st, 0)
  | n + 1, st =>
    let r := park_unpark st
    let rest := park_unparks n r.1
    (rest.1, rest.2 + if r.2 then 1 else 0)

/-! ### AtomicCell / SeqLock (src/coroutine/src/sync/mod.rs, sync/atomic_cell.rs)

The shard table and the fallback branches of `atomic_load`/`atomic_store` are
in sync/mod.rs.  The `SeqLock` type itself (sync/seq_lock.rs) is declared but
its source file is not in the tree, so its four primitive operations are
modelled from the spec. -/

/-- Modelled from the spec: SeqLock::optimistic_read (seq_lock.rs is missing
from the source tree).  Reading the sequence stamp succeeds only when no
writer is active, i.e. when the stamp is even. -/
def optimistic_read (seq : Nat) : Option Nat := if seq % 2 = 0 then some seq else none

/-- Modelled from the spec: SeqLock::validate_read (seq_lock.rs is missing
from the source tree).  An optimistic read is valid when the stamp re-read
after the value read is unchanged. -/
def validate_read (seq stamp : Nat) : Bool := seq == stamp

/-- Modelled from the spec: acquiring the SeqLock write lock bumps the
sequence stamp by one (seq_lock.rs is missing from the source tree). -/
def write_acquire (seq : Nat) : Nat := seq + 1

/-- Modelled from the spec: releasing the SeqLock write lock bumps the
sequence stamp again (seq_lock.rs is missing from the source tree). -/
def write_release (seq : Nat) : Nat := seq + 1

/-- Modelled from the spec: SeqLockWriteGuard::abort undoes the acquire bump,
since the protected value did not change (seq_lock.rs is missing from the
source tree). -/
def write_abort (seq : Nat) : Nat := seq - 1

/-- Number of entries of the global shard table `LOCKS` (sync/mod.rs:40-53). -/
def LOCKS_LEN : Nat := 67

/-- lock (sync/mod.rs:40-53): index of the global SeqLock shard backing the
`AtomicCell` at address `addr`, namely `addr % 67`. -/
def lock (addr : Nat) : Nat := addr % LOCKS_LEN

/-- Sequential state of one SeqLock-protected cell: the shard's sequence
stamp and the stored value. -/
structure SeqCell (α : Type) where
  seq : Nat
  val : α

/-- The fallback branch of atomic_store (sync/mod.rs:105-123): take the
shard's write lock, plain-write the value, release on drop. -/
def atomic_store_fallback {α : Type} (c : SeqCell α) (v : α) : SeqCell α :=
  ⟨write_release (write_acquire c.seq), v⟩

/-- The fallback branch of atomic_load (sync/mod.rs:60-103) under sequential
(quiescent) semantics: optimistic read of the stamp, value read, validation;
on failure take the write lock, plain-read, and abort the sequence bump.
Returns the loaded value and the cell state afterwards. -/
def atomic_load_fallback {α : Type} (c : SeqCell α) : α × SeqCell α :=
  match optimistic_read c.seq with
  | some stamp =>
    if validate_read c.seq stamp then (c.val, c)
    else (c.val, ⟨write_abort (write_acquire c.seq), c.val⟩)
  | none => (c.val, ⟨write_abort (write_acquire c.seq), c.val⟩)

/-- The fallback branch of atomic_load (sync/mod.rs:60-103) with the
concurrent environment abstracted: `stamp1` is the stamp observed by
`optimistic_read`, `stamp2` the stamp observed by `validate_read`, `volVal`
the volatile value read, `lockVal` the plain read under the write lock.
Returns the loaded value and whether the write-lock path was taken. -/
def atomic_load_obs {α : Type} (stamp1 stamp2 : Nat) (volVal lockVal : α) : α × Bool :=
  match optimistic_read stamp1 with
  | some stamp => if validate_read stamp2 stamp then (volVal, false) else (lockVal, true)
  | none => (lockVal, true)

/-- The native-atomic fast path of atomic_store (sync/mod.rs:105-123): a
same-size hardware atomic store of `v` over the cell. -/
def atomic_store_native {α : Type} (_cell v : α) : α := v

/-- The native-atomic fast path of atomic_load (sync/mod.rs:60-103): a
same-size hardware atomic load of the cell. -/
def atomic_load_native {α : Type} (cell : α) : α := cell

/-! ### Error payloads (src/coroutine/src/error.rs, join_handler.rs) -/

/-- Error (error.rs): the runtime's error taxonomy. -/
inductive Error where
  | Done
  | Cancel
  | TypeErr
  | StackErr
  | ContextErr
  deriving DecidableEq, Repr

/-- A type-erased `Box<dyn Any + Send>` payload: either one of the runtime's
`Error` values or some other boxed value. -/
inductive BoxedAny where
  | errValue (e : Error)
  | otherValue (n : Nat)
  deriving DecidableEq, Repr

/-- JoinHandle::join (join_handler.rs:52-59): take the result packet; when it
is absent, fail with the taken panic payload, defaulting to
`Box::new(Error::Cancel)`. -/
def joinHandle_join (α : Type) (packet : Option α) (abruptSlot : Option BoxedAny) :
    Except BoxedAny α :=
  match packet with
  | some v => Except.ok v
  | none => Except.error (abruptSlot.getD (BoxedAny.errValue Error.Cancel))

/-! ### Coroutine conclusion (src/coroutine/src/lib.rs, done.rs) -/

/-- What Done::drop_coroutine (done.rs:5-30) does with the concluded
coroutine's stack. -/
inductive DropOutcome where
  | fatalExit
  | pooled
  | dropped
  deriving DecidableEq, Repr

/-- Done::drop_coroutine (done.rs:5-30): if the measured used size equals the
capacity, `process::exit(1)`; otherwise return the stack to the scheduler
pool exactly when its size equals the configured default stack size. -/
def drop_coroutine (size used default_size : Nat) : DropOutcome :=
  if used = size then .fatalExit
  else if size = default_size then .pooled
  else .dropped

/-- Observable effects of the `None` (concluded) branch of run_coroutine
(lib.rs:87-107). -/
structure FinishEffects where
  joinTriggered : Bool
  payloadStored : Bool
  outcome : DropOutcome
  deriving DecidableEq, Repr

/-- The `None` branch of run_coroutine (lib.rs:87-107): store the panic
payload in the Join if present, trigger the Join, then drop the coroutine via
Done::drop_coroutine. -/
def run_coroutine_finish (payload : Option BoxedAny) (size used default_size : Nat) :
    FinishEffects :=
  ⟨true, payload.isSome, drop_coroutine size used default_size⟩

/-! ### Stack-overflow signal handler (src/coroutine/src/stack/unix/overflow.rs) -/

/-- How the signal handler's activation ends. -/
inductive HandlerExit where
  | reinstalledPrevious
  | abortedProcess
  deriving DecidableEq, Repr

/-- guard::current (guard.rs): the active coroutine's guard range, widened by
one page below: `guard.0 - page_size .. guard.1`. -/
def guard_current (lo hi P : Nat) : Nat × Nat := (lo - P, hi)

/-- Result of one signal-handler activation: how it exits and the content of
the active Context's error slot afterwards. -/
structure HandlerResult where
  exit : HandlerExit
  errSlot : Option BoxedAny
  deriving DecidableEq, Repr

/-- signal_handler (overflow.rs:20-55): when the fault address is outside the
active guard range, re-install the previously installed action and return;
when it is inside, write `StackErr` into the active Context's error slot,
unblock the signal, call `std::thread::yield_now()` — a scheduling hint that
returns to the handler — and then `process::abort()`. -/
def signal_handler (g : Nat × Nat) (addr : Nat) (prevErr : Option BoxedAny) : HandlerResult :=
  if g.1 ≤ addr ∧ addr < g.2 then
    ⟨HandlerExit.abortedProcess, some (BoxedAny.errValue Error.StackErr)⟩
  else
    ⟨HandlerExit.reinstalledPrevious, prevErr⟩

/-! ## Helper lemmas -/

/-- Setting bit 0 of a natural number, written arithmetically. -/
theorem lor_one_eq (s : Nat) : s ||| 1 = 2 * (s / 2) + 1 := by
  apply Nat.eq_of_testBit_eq
  intro i
  cases i with
  | zero =>
    simp [Nat.testBit_lor, Nat.testBit_zero]
    omega
  | succ n =>
    rw [Nat.testBit_lor, Nat.testBit_succ, Nat.testBit_succ, Nat.testBit_succ]
    have h1 : (1 : Nat) / 2 = 0 := by norm_num
    have h2 : (2 * (s / 2) + 1) / 2 = s / 2 := by omega
    rw [h1, h2]
    simp

/-- The Rust mask `!(P - 1)` for a power-of-two `P` rounds a 64-bit value
down to a multiple of `P`. -/
theorem land_mask (n k : Nat) (hk : k ≤ 64) (hn : n < 2 ^ 64) :
    Nat.land n (2 ^ 64 - 2 ^ k) = n / 2 ^ k * 2 ^ k := by
  have hmask : (2 : Nat) ^ 64 - 2 ^ k = (2 ^ (64 - k) - 1) <<< k := by
    rw [Nat.shiftLeft_eq, Nat.sub_mul, one_mul, ← pow_add]
    rw [Nat.sub_add_cancel hk]
  have hrhs : n / 2 ^ k * 2 ^ k = (n >>> k) <<< k := by
    rw [Nat.shiftRight_eq_div_pow, Nat.shiftLeft_eq]
  rw [hmask, hrhs]
  apply Nat.eq_of_testBit_eq
  intro i
  show (n &&& (2 ^ (64 - k) - 1) <<< k).testBit i = _
  rw [Nat.testBit_land, Nat.testBit_shiftLeft, Nat.testBit_shiftLeft]
  by_cases hik : k ≤ i
  · rw [Nat.testBit_two_pow_sub_one, Nat.testBit_shiftRight]
    have hki : k + (i - k) = i := by omega
    rw [hki]
    by_cases hi64 : i < 64
    · have h3 : i - k < 64 - k := by omega
      simp [hik, hi64, h3]
    · have h4 : n.testBit i = false := by
        apply Nat.testBit_lt_two_pow
        calc n < 2 ^ 64 := hn
        _ ≤ 2 ^ i := Nat.pow_le_pow_right (by norm_num) (by omega)
      simp [h4]
  · simp [hik]

/-- Each Cancel-state operation keeps the state inside the `usize` range. -/
theorem cancelStep_lt (s : Nat) (op : CancelOp) (h : s < USIZE) : cancelStep s op < USIZE := by
  have hU : USIZE = 18446744073709551616 := by norm_num [USIZE]
  cases op with
  | cancel =>
    show s ||| 1 < USIZE
    rw [lor_one_eq]
    omega
  | disableCancel =>
    show (s + 2) % USIZE < USIZE
    rw [hU]
    rw [hU] at h
    omega
  | enableCancel =>
    show (s + (USIZE - 2)) % USIZE < USIZE
    rw [hU]
    rw [hU] at h
    omega

/-- Each Cancel-state operation preserves an odd (request-bit-set) state. -/
theorem cancelStep_parity (s : Nat) (op : CancelOp) (hs : s < USIZE) (h : s % 2 = 1) :
    cancelStep s op % 2 = 1 := by
  have hU : USIZE = 18446744073709551616 := by norm_num [USIZE]
  cases op with
  | cancel =>
    show (s ||| 1) % 2 = 1
    rw [lor_one_eq]
    omega
  | disableCancel =>
    show (s + 2) % USIZE % 2 = 1
    rw [hU]
    rw [hU] at hs
    omega
  | enableCancel =>
    show (s + (USIZE - 2)) % USIZE % 2 = 1
    rw [hU]
    rw [hU] at hs
    omega

/-- Running any operation sequence from an odd in-range state keeps the state
odd and in range. -/
theorem cancelRun_parity (ops : List CancelOp) : ∀ s, s < USIZE → s % 2 = 1 →
    cancelRun s ops % 2 = 1 ∧ cancelRun s ops < USIZE := by
  induction ops with
  | nil => intro s hs h; exact ⟨h, hs⟩
  | cons op l ih =>
    intro s hs h
    have h1 := cancelStep_lt s op hs
    have h2 := cancelStep_parity s op hs h
    exact ih (cancelStep s op) h1 h2

/-- Running any operation sequence keeps the state in range. -/
theorem cancelRun_lt (ops : List CancelOp) : ∀ s, s < USIZE → cancelRun s ops < USIZE := by
  induction ops with
  | nil => intro s hs; exact hs
  | cons op l ih => intro s hs; exact ih (cancelStep s op) (cancelStep_lt s op hs)

/-- Unfolding one step of `cancelRun`. -/
theorem cancelRun_cons (s : Nat) (op : CancelOp) (l : List CancelOp) :
    cancelRun s (op :: l) = cancelRun (cancelStep s op) l := rfl

/-- A balanced disable/enable sequence run from state `2 * d + 1` ends in
state `1` (no wrap-around occurs below the stated bound). -/
theorem cancelRun_balanced (post : List CancelOp) : ∀ d, balancedFrom d post = true →
    2 * (d + post.length) + 2 < USIZE → cancelRun (2 * d + 1) post = 1 := by
  have hU : USIZE = 18446744073709551616 := by norm_num [USIZE]
  induction post with
  | nil =>
    intro d hb _
    have hd : d = 0 := by simpa [balancedFrom] using hb
    simp [cancelRun, hd]
  | cons op l ih =>
    intro d hb hlen
    cases op with
    | cancel => simp [balancedFrom] at hb
    | disableCancel =>
      have hb2 : balancedFrom (d + 1) l = true := by simpa [balancedFrom] using hb
      have hstep : cancelStep (2 * d + 1) CancelOp.disableCancel = 2 * (d + 1) + 1 := by
        show (2 * d + 1 + 2) % USIZE = 2 * (d + 1) + 1
        rw [hU]
        rw [hU] at hlen
        simp only [List.length_cons] at hlen
        omega
      rw [cancelRun_cons, hstep]
      apply ih (d + 1) hb2
      simp only [List.length_cons] at hlen
      omega
    | enableCancel =>
      have hb0 : 0 < d ∧ balancedFrom (d - 1) l = true := by
        simpa [balancedFrom] using hb
      have hstep : cancelStep (2 * d + 1) CancelOp.enableCancel = 2 * (d - 1) + 1 := by
        show (2 * d + 1 + (USIZE - 2)) % USIZE = 2 * (d - 1) + 1
        rw [hU]
        rw [hU] at hlen
        have hd := hb0.1
        simp only [List.length_cons] at hlen
        omega
      rw [cancelRun_cons, hstep]
      apply ih (d - 1) hb0.2
      simp only [List.length_cons] at hlen
      omega

/-! ## Claims -/

/-- C1 (counterexample): the claim says that once `cancel()` has been called,
every later `is_cancelled()` call returns true regardless of interleaved
`disable_cancel()` calls; but after `cancel()` followed by `disable_cancel()`
the state is 3 and `is_cancelled()` — which tests `state == 1` — returns
false. -/
theorem c1_is_cancelled_not_sticky :
    is_cancelled (cancelRun 0 [CancelOp.cancel, CancelOp.disableCancel]) = false := by
  decide

/-- C1 (amended): the cancel-request bit itself is sticky — after `cancel()`
the state stays odd for the remainder of the object's life, whatever
disable/enable operations follow — but `is_cancelled()` only reports it while
the disable count is zero: after any balanced sequence of
`disable_cancel`/`enable_cancel` calls it returns true again. -/
theorem c1_cancel_request_bit_sticky (pre post : List CancelOp) :
    cancelRun 0 (pre ++ CancelOp.cancel :: post) % 2 = 1
    ∧ (balancedFrom 0 post = true → 2 * post.length + 2 < USIZE →
        is_cancelled (cancelRun 1 post) = true) := by
  constructor
  · have hpre : cancelRun 0 pre < USIZE := by
      apply cancelRun_lt
      norm_num [USIZE]
    have hsplit : cancelRun 0 (pre ++ CancelOp.cancel :: post)
        = cancelRun (cancelStep (cancelRun 0 pre) CancelOp.cancel) post := by
      simp [cancelRun, List.foldl_append]
    rw [hsplit]
    have h1 := cancelStep_lt (cancelRun 0 pre) CancelOp.cancel hpre
    have h2 : cancelStep (cancelRun 0 pre) CancelOp.cancel % 2 = 1 := by
      show (cancelRun 0 pre ||| 1) % 2 = 1
      rw [lor_one_eq]
      omega
    exact (cancelRun_parity post _ h1 h2).1
  · intro hb hlen
    have h := cancelRun_balanced post 0 hb (by simpa using hlen)
    simp only [Nat.mul_zero, Nat.zero_add] at h
    rw [h]
    rfl

/-- C1 (witness): the amended statement evaluated on a concrete trace with an
unbalanced prefix and a balanced suffix. -/
theorem c1_cancel_request_bit_sticky_witness :
    cancelRun 0 ([CancelOp.enableCancel] ++
        CancelOp.cancel :: [CancelOp.disableCancel, CancelOp.enableCancel]) % 2 = 1
    ∧ is_cancelled (cancelRun 1 [CancelOp.disableCancel, CancelOp.enableCancel]) = true :=
  ⟨(c1_cancel_request_bit_sticky [CancelOp.enableCancel]
      [CancelOp.disableCancel, CancelOp.enableCancel]).1,
   (c1_cancel_request_bit_sticky [CancelOp.enableCancel]
      [CancelOp.disableCancel, CancelOp.enableCancel]).2 (by decide) (by decide)⟩

/-- C2: for every requested size `s ≥ page_size` whose protected allocation
succeeds, the returned bounds sit one page above the mapping base, the usable
region `top - bottom` is exactly `s` rounded up to a page multiple — hence at
least `s` — and every byte of the page immediately below the returned bottom
is an inaccessible guard page. -/
theorem c2_stack_allocate_guarded (k P M s b len : Nat)
    (hP : P = 2 ^ k) (hk : k ≤ 64) (hps : P ≤ s) (hs : s < USIZE)
    (hok : alloc_len P M s true = some len) :
    sys_allocate P M s true b = some ⟨b + len, b + P⟩
    ∧ (b + len) - (b + P) = ((s + P - 1) / P) * P
    ∧ s ≤ (b + len) - (b + P)
    ∧ (∀ a, (b + P) - P ≤ a → a < b + P → protect_prot P b len a = MemProt.noAccess) := by
  have hPpos : 0 < P := by
    rw [hP]
    exact Nat.pos_pow_of_pos k (by norm_num)
  have hs1 : ¬ s < min_stack_size P := by
    simp only [min_stack_size]
    omega
  have hland : Nat.land (s - 1) (USIZE - P) = (s - 1) / P * P := by
    have h1 : s - 1 < 2 ^ 64 := by
      have : USIZE = 2 ^ 64 := rfl
      omega
    rw [hP]
    show Nat.land (s - 1) (2 ^ 64 - 2 ^ k) = (s - 1) / 2 ^ k * 2 ^ k
    exact land_mask (s - 1) k hk h1
  have hlen : len = (s - 1) / P * P + (P <<< 1) := by
    have hnlt : ¬ s < P := by omega
    simp [alloc_len, min_stack_size, hnlt, hland] at hok
    exact hok.2.2.symm
  have hshift : P <<< 1 = 2 * P := by
    rw [Nat.shiftLeft_eq]
    ring
  have hq : s - 1 = (s - 1) / P * P + (s - 1) % P := (Nat.div_add_mod' (s - 1) P).symm
  have hr : (s - 1) % P < P := Nat.mod_lt (s - 1) hPpos
  have hround : ((s + P - 1) / P) * P = (s - 1) / P * P + P := by
    have h1 : s + P - 1 = (s - 1) + P := by omega
    rw [h1, Nat.add_div_right (s - 1) hPpos, Nat.add_mul, one_mul]
  refine ⟨?_, ?_, ?_, ?_⟩
  · rw [sys_allocate, hok]
    rfl
  · rw [hlen, hshift, hround]
    omega
  · rw [hlen, hshift]
    have h2 : s - 1 < (s - 1) / P * P + P := by omega
    omega
  · intro a ha1 ha2
    have hb : b ≤ a := by omega
    rw [protect_prot, if_pos ⟨hb, ha2⟩]

/-- C2 (witness): a protected allocation of 5000 bytes with 4096-byte pages
yields a 12288-byte mapping whose usable region is 8192 ≥ 5000 bytes, and an
address in the page below the bottom is inaccessible. -/
theorem c2_stack_allocate_guarded_witness :
    sys_allocate 4096 1073741824 5000 true 1048576 = some ⟨1060864, 1052672⟩
    ∧ 1060864 - 1052672 = ((5000 + 4096 - 1) / 4096) * 4096
    ∧ 5000 ≤ 1060864 - 1052672
    ∧ protect_prot 4096 1048576 12288 1050000 = MemProt.noAccess := by
  have h := c2_stack_allocate_guarded 12 4096 1073741824 5000 1048576 12288
    (by norm_num) (by norm_num) (by norm_num) (by norm_num [USIZE]) (by decide)
  exact ⟨h.1, h.2.1, h.2.2.1, h.2.2.2 1050000 (by norm_num) (by norm_num)⟩

/-- A `tp_unpark` from a nonzero guard changes nothing and performs no wake. -/
theorem tp_unparks_nonzero (n : Nat) : ∀ g, g ≠ 0 → tp_unparks n g = (g, 0) := by
  induction n with
  | zero => intro g _; rfl
  | succ m ih =>
    intro g hg
    simp [tp_unparks, tp_unpark, if_neg hg, ih g hg]

/-- A run of `park_unpark` calls from the ready state changes nothing and
performs no wake. -/
theorem park_unparks_true (n : Nat) : park_unparks n true = (true, 0) := by
  induction n with
  | zero => rfl
  | succ m ih => simp [park_unparks, park_unpark, ih]

/-- C3: a wake token is never lost and never duplicated.  For any burst of
`n ≥ 1` ThreadPark::unpark calls from guard state `g`, exactly one notify
happens when the token was absent and none otherwise, the guard ends nonzero,
and the following park_timeout returns immediately (without blocking) and
clears the guard; likewise a burst of Park::unpark calls performs a wake only
for the caller that first flips the ready flag from false to true. -/
theorem c3_unpark_before_park_not_lost (n : Nat) (g : Nat) (st : Bool) (hn : 1 ≤ n) :
    (tp_unparks n g).1 ≠ 0
    ∧ (tp_unparks n g).2 = (if g = 0 then 1 else 0)
    ∧ (tp_park (tp_unparks n g).1).2 = true
    ∧ (tp_park (tp_unparks n g).1).1 = 0
    ∧ (park_unparks n st).2 = (if st then 0 else 1) := by
  obtain ⟨m, rfl⟩ : ∃ m, n = m + 1 := ⟨n - 1, by omega⟩
  have hmain : tp_unparks (m + 1) g = (if g = 0 then (1, 1) else (g, 0)) := by
    by_cases hg : g = 0
    · subst hg
      simp [tp_unparks, tp_unpark, tp_unparks_nonzero m 1 one_ne_zero]
    · simp [tp_unparks, tp_unpark, hg, tp_unparks_nonzero m g hg]
  have hpark : park_unparks (m + 1) st = (true, if st then 0 else 1) := by
    cases st with
    | false =>
      simp only [park_unparks, park_unpark, Bool.not_false, park_unparks_true]
      rfl
    | true =>
      simp only [park_unparks, park_unpark, Bool.not_true, park_unparks_true]
      rfl
  rw [hmain, hpark]
  by_cases hg : g = 0
  · subst hg
    simp [tp_park]
  · simp [tp_park, hg]

/-- C3 (witness): two unparks from the empty state perform exactly one wake,
and the following park returns immediately. -/
theorem c3_unpark_before_park_not_lost_witness :
    (tp_unparks 2 0).1 ≠ 0
    ∧ (tp_unparks 2 0).2 = (if (0 : Nat) = 0 then 1 else 0)
    ∧ (tp_park (tp_unparks 2 0).1).2 = true
    ∧ (tp_park (tp_unparks 2 0).1).1 = 0
    ∧ (park_unparks 2 false).2 = (if false then 0 else 1) :=
  c3_unpark_before_park_not_lost 2 0 false (by norm_num)

/-- C4: the store-then-load round trip returns the stored value on the
native-atomic fast path and on the SeqLock fallback path, and a fallback
store from a quiescent (even) stamp leaves the stamp even again. -/
theorem c4_atomic_cell_roundtrip (α : Type) (v w : α) (s : Nat) (hs : s % 2 = 0) :
    atomic_load_native (atomic_store_native v w) = w
    ∧ (atomic_load_fallback (atomic_store_fallback (SeqCell.mk s v) w)).1 = w
    ∧ (atomic_store_fallback (SeqCell.mk s v) w).seq % 2 = 0 := by
  refine ⟨rfl, ?_, ?_⟩
  · rw [atomic_load_fallback]
    rcases h : optimistic_read (atomic_store_fallback (SeqCell.mk s v) w).seq with _ | stamp
    · rfl
    · simp only [h]
      split
      · rfl
      · rfl
  · show (write_release (write_acquire s)) % 2 = 0
    rw [write_release, write_acquire]
    omega

/-- C4 (witness): the round trip evaluated with a 3-byte value type (three
bytes, a size that matches no native atomic width). -/
theorem c4_atomic_cell_roundtrip_witness :
    atomic_load_native (atomic_store_native
        ((1, 2, 3) : Fin 256 × Fin 256 × Fin 256) (4, 5, 6)) = (4, 5, 6)
    ∧ (atomic_load_fallback (atomic_store_fallback
        (SeqCell.mk 0 ((1, 2, 3) : Fin 256 × Fin 256 × Fin 256)) (4, 5, 6))).1 = (4, 5, 6)
    ∧ (atomic_store_fallback
        (SeqCell.mk 0 ((1, 2, 3) : Fin 256 × Fin 256 × Fin 256)) (4, 5, 6)).seq % 2 = 0 :=
  c4_atomic_cell_roundtrip (Fin 256 × Fin 256 × Fin 256) (1, 2, 3) (4, 5, 6) 0 (by norm_num)

/-- C5 (code bug): the claim says every pointer dereferenced by the Stack
operations lies within the allocated mapping plus its guard page; but
`Stack::get_offset` computes `top + 8` and `Stack::new` writes the offset
word there, one word past the high end of the mapping `[b, b + len)`. -/
theorem c5_offset_write_out_of_bounds (P M s b len : Nat)
    (hok : alloc_len P M s true = some len) (stk : SysStack)
    (hstk : sys_allocate P M s true b = some stk) :
    stack_new_offset_write stk = b + len + 8
    ∧ ¬ in_alloc_and_guard b len (stack_new_offset_write stk) := by
  have hdef : stk = ⟨b + len, b + P⟩ := by
    rw [sys_allocate, hok] at hstk
    simpa [protect_stack, allocate_stack] using hstk.symm
  subst hdef
  constructor
  · rfl
  · rw [stack_new_offset_write, get_offset_addr, in_alloc_and_guard]
    simp only [not_and, not_lt]
    intro _
    omega

/-- C5 (witness): the out-of-bounds offset write evaluated on a concrete
allocation. -/
theorem c5_offset_write_out_of_bounds_witness :
    stack_new_offset_write ⟨1060864, 1052672⟩ = 1048576 + 12288 + 8
    ∧ ¬ in_alloc_and_guard 1048576 12288 (stack_new_offset_write ⟨1060864, 1052672⟩) :=
  c5_offset_write_out_of_bounds 4096 1073741824 5000 1048576 12288 (by decide)
    ⟨1060864, 1052672⟩ (by decide)

/-- C6: when a coroutine's activation record concludes, the Join is triggered
unconditionally; the stack is returned to the scheduler pool exactly when its
size equals the configured default stack size and it did not overflow; and a
fully-used stack makes the process exit fatally. -/
theorem c6_finish_triggers_join_and_recycles (payload : Option BoxedAny)
    (size used d : Nat) :
    (run_coroutine_finish payload size used d).joinTriggered = true
    ∧ ((run_coroutine_finish payload size used d).outcome = DropOutcome.pooled
        ↔ (used ≠ size ∧ size = d))
    ∧ (used = size →
        (run_coroutine_finish payload size used d).outcome = DropOutcome.fatalExit) := by
  refine ⟨rfl, ?_, ?_⟩
  · show drop_coroutine size used d = DropOutcome.pooled ↔ (used ≠ size ∧ size = d)
    rw [drop_coroutine]
    by_cases h1 : used = size
    · simp [h1]
    · by_cases h2 : size = d
      · simp [h1, h2]
      · simp [h1, h2]
  · intro h
    show drop_coroutine size used d = DropOutcome.fatalExit
    rw [drop_coroutine, if_pos h]

/-- C6 (witness): a default-size, non-overflowed stack is pooled, the Join is
triggered, and a fully-used stack is fatal. -/
theorem c6_finish_triggers_join_and_recycles_witness :
    (run_coroutine_finish none 10 3 10).joinTriggered = true
    ∧ (run_coroutine_finish none 10 3 10).outcome = DropOutcome.pooled
    ∧ (run_coroutine_finish none 10 10 10).outcome = DropOutcome.fatalExit :=
  ⟨(c6_finish_triggers_join_and_recycles none 10 3 10).1,
   (c6_finish_triggers_join_and_recycles none 10 3 10).2.1.mpr (by norm_num),
   (c6_finish_triggers_join_and_recycles none 10 10 10).2.2 rfl⟩

/-- C7 (code bug): the handler re-installs the previous signal action and
returns when the fault address is outside the active guard range; when the
address is inside the guard range it writes `StackErr` into the active
Context's error slot but then aborts the process (its `yield_now()` is
`std::thread::yield_now`, a scheduling hint that returns, after which
`process::abort()` runs) — it never unwinds back to the scheduler. -/
theorem c7_overflow_handler_aborts (lo hi P addr : Nat) (prevErr : Option BoxedAny) :
    (¬ ((guard_current lo hi P).1 ≤ addr ∧ addr < (guard_current lo hi P).2) →
      signal_handler (guard_current lo hi P) addr prevErr
        = ⟨HandlerExit.reinstalledPrevious, prevErr⟩)
    ∧ (((guard_current lo hi P).1 ≤ addr ∧ addr < (guard_current lo hi P).2) →
      signal_handler (guard_current lo hi P) addr prevErr
        = ⟨HandlerExit.abortedProcess, some (BoxedAny.errValue Error.StackErr)⟩) := by
  constructor
  · intro h
    rw [signal_handler, if_neg h]
  · intro h
    rw [signal_handler, if_pos h]

/-- C7 (witness): a fault outside the guard range re-raises the previous
action; a fault inside it sets `StackErr` and aborts the process. -/
theorem c7_overflow_handler_aborts_witness :
    signal_handler (guard_current 8192 16384 4096) 20000 none
      = ⟨HandlerExit.reinstalledPrevious, none⟩
    ∧ signal_handler (guard_current 8192 16384 4096) 5000 none
      = ⟨HandlerExit.abortedProcess, some (BoxedAny.errValue Error.StackErr)⟩ :=
  ⟨(c7_overflow_handler_aborts 8192 16384 4096 20000 none).1 (by decide),
   (c7_overflow_handler_aborts 8192 16384 4096 5000 none).2 (by decide)⟩

/-- C8: every fallback operation addresses the single 67-entry global lock
table through `addr % 67`; a load takes the optimistic path exactly when the
first stamp is even and the validation re-read is unchanged, returning the
volatile read, and otherwise takes the write-lock path, returning the plain
read under the lock; aborting after an acquire restores the stamp. -/
theorem c8_seqlock_sharding_and_load (addr stamp1 stamp2 s : Nat) (v l : Nat) :
    lock addr = addr % 67
    ∧ lock addr < 67
    ∧ ((atomic_load_obs stamp1 stamp2 v l).2 = false
        ↔ (stamp1 % 2 = 0 ∧ stamp2 = stamp1))
    ∧ ((stamp1 % 2 = 0 ∧ stamp2 = stamp1) → (atomic_load_obs stamp1 stamp2 v l).1 = v)
    ∧ (¬ (stamp1 % 2 = 0 ∧ stamp2 = stamp1) → (atomic_load_obs stamp1 stamp2 v l).1 = l)
    ∧ write_abort (write_acquire s) = s := by
  have hobs : atomic_load_obs stamp1 stamp2 v l
      = if stamp1 % 2 = 0 then
          (if stamp2 = stamp1 then ((v : Nat), false) else (l, true))
        else (l, true) := by
    by_cases h1 : stamp1 % 2 = 0 <;> by_cases h2 : stamp2 = stamp1 <;>
      simp [atomic_load_obs, optimistic_read, validate_read, h1, h2]
  refine ⟨rfl, Nat.mod_lt addr (by decide), ?_, ?_, ?_, rfl⟩
  · rw [hobs]
    by_cases h1 : stamp1 % 2 = 0 <;> by_cases h2 : stamp2 = stamp1 <;> simp [h1, h2]
  · intro h
    rw [hobs, if_pos h.1, if_pos h.2]
  · intro h
    rw [hobs]
    by_cases h1 : stamp1 % 2 = 0
    · have h2 : ¬ stamp2 = stamp1 := fun hc => h ⟨h1, hc⟩
      rw [if_pos h1, if_neg h2]
    · rw [if_neg h1]

/-- C8 (witness): shard index of address 70, an optimistic load with an even
unchanged stamp, a locked load with an odd stamp, and an abort restoring the
stamp, all evaluated concretely. -/
theorem c8_seqlock_sharding_and_load_witness :
    lock 70 = 70 % 67
    ∧ lock 70 < 67
    ∧ ((atomic_load_obs 2 2 9 8).2 = false ↔ ((2 : Nat) % 2 = 0 ∧ (2 : Nat) = 2))
    ∧ (atomic_load_obs 2 2 9 8).1 = 9
    ∧ (atomic_load_obs 3 2 9 8).1 = 8
    ∧ write_abort (write_acquire 5) = 5 := by
  have h1 := c8_seqlock_sharding_and_load 70 2 2 5 9 8
  have h2 := c8_seqlock_sharding_and_load 70 3 2 5 9 8
  exact ⟨h1.1, h1.2.1, h1.2.2.1, h1.2.2.2.1 (by norm_num),
    h2.2.2.2.2.1 (by decide), h1.2.2.2.2.2⟩

/-- C9: a JoinHandle whose coroutine stored no result packet and recorded no
panic payload reports the default abrupt-termination payload
`Error::Cancel`. -/
theorem c9_join_defaults_to_cancel (α : Type) (packet : Option α)
    (slot : Option BoxedAny) (hp : packet = none) (hslot : slot = none) :
    joinHandle_join α packet slot = Except.error (BoxedAny.errValue Error.Cancel) := by
  subst hp
  subst hslot
  rfl

/-- C9 (witness): the default payload evaluated at a concrete result type. -/
theorem c9_join_defaults_to_cancel_witness :
    joinHandle_join Nat none none = Except.error (BoxedAny.errValue Error.Cancel) :=
  c9_join_defaults_to_cancel Nat none none rfl rfl

/-- Scanning a run of sentinel words takes all of them. -/
theorem takeWhile_replicate_sentinel (n : Nat) :
    (List.replicate n SENTINEL).takeWhile (fun w => w == SENTINEL)
      = List.replicate n SENTINEL := by
  induction n with
  | zero => rfl
  | succ m ih => simp [List.replicate_succ, List.takeWhile_cons, ih]

/-- Scanning a run of sentinel words followed by anything takes the run and
continues into the tail. -/
theorem takeWhile_replicate_sentinel_append (n : Nat) (rest : List Nat) :
    (List.replicate n SENTINEL ++ rest).takeWhile (fun w => w == SENTINEL)
      = List.replicate n SENTINEL ++ rest.takeWhile (fun w => w == SENTINEL) := by
  induction n with
  | zero => rfl
  | succ m ih => simp [List.replicate_succ, List.takeWhile_cons, ih]

/-- C10 (code bug): `Stack::new` pre-writes the 0xEE sentinel over the whole
stack only when the requested size is odd (the tracking flag); for even sizes
only the lowest 8 words are pre-written.  `get_used_size` scans the leading
sentinel run with no capacity bound, so it returns capacity minus the leading
intact-sentinel count only when some region word differs from the sentinel
(for untracked stacks that count follows the pre-existing garbage, not actual
usage); on a fresh tracked stack, whose region is entirely sentinel, the scan
instead dereferences the word at the region's top — an address outside the
allocated-plus-guard mapping — rather than returning 0. -/
theorem c10_sentinel_tracking (size : Nat) (mem : List Nat) (h8 : 8 ≤ mem.length) :
    (size % 2 = 1 → stack_new_mem size mem = List.replicate mem.length SENTINEL)
    ∧ (size % 2 = 0 → stack_new_mem size mem = List.replicate 8 SENTINEL ++ mem.drop 8)
    ∧ (size % 2 = 1 → get_used_size (stack_new_mem size mem) = ScanResult.oobRead)
    ∧ (size % 2 = 0 →
        ((mem.drop 8).takeWhile (fun w => w == SENTINEL)).length < (mem.drop 8).length →
        get_used_size (stack_new_mem size mem)
          = ScanResult.ok (mem.length
              - (8 + ((mem.drop 8).takeWhile (fun w => w == SENTINEL)).length)))
    ∧ (∀ b P len, 8 * mem.length + P = len →
        ¬ in_alloc_and_guard b len (scan_read_addr (b + P) mem.length)) := by
  have hand : size &&& 1 = size % 2 := Nat.and_one_is_mod size
  have hodd : size % 2 = 1 → stack_new_mem size mem = List.replicate mem.length SENTINEL := by
    intro h
    simp [stack_new_mem, hand, h]
  have heven : size % 2 = 0 →
      stack_new_mem size mem = List.replicate 8 SENTINEL ++ mem.drop 8 := by
    intro h
    simp [stack_new_mem, hand, h]
  refine ⟨hodd, heven, ?_, ?_, ?_⟩
  · intro h
    rw [hodd h, get_used_size]
    rw [if_pos (by rw [takeWhile_replicate_sentinel])]
  · intro h hg
    rw [heven h, get_used_size]
    have hlen : (mem.drop 8).length = mem.length - 8 := List.length_drop 8 mem
    rw [hlen] at hg
    have hcond : ¬ ((List.replicate 8 SENTINEL ++ mem.drop 8).takeWhile
        (fun w => w == SENTINEL)).length
          = (List.replicate 8 SENTINEL ++ mem.drop 8).length := by
      rw [takeWhile_replicate_sentinel_append]
      simp only [List.length_append, List.length_replicate, hlen]
      omega
    rw [if_neg hcond, takeWhile_replicate_sentinel_append]
    simp only [List.length_append, List.length_replicate, hlen]
    have : 8 + (mem.length - 8)
        - (8 + ((mem.drop 8).takeWhile (fun w => w == SENTINEL)).length)
          = mem.length - (8 + ((mem.drop 8).takeWhile (fun w => w == SENTINEL)).length) := by
      omega
    rw [this]
  · intro b P len hfit
    rw [scan_read_addr, in_alloc_and_guard]
    simp only [not_and, not_lt]
    intro _
    omega

/-- C10 (witness): the sentinel pre-write and the scan outcome evaluated on a
16-word region of zeroed garbage: an odd (tracked) requested size pre-writes
everything and makes the scan read out of bounds; an even one pre-writes 8
words and reports capacity minus the leading sentinel run; the out-of-bounds
word sits outside a mapping that ends exactly at the region's top. -/
theorem c10_sentinel_tracking_witness :
    stack_new_mem 5 (List.replicate 16 0) = List.replicate (List.replicate 16 0).length SENTINEL
    ∧ stack_new_mem 4 (List.replicate 16 0)
        = List.replicate 8 SENTINEL ++ (List.replicate 16 (0 : Nat)).drop 8
    ∧ get_used_size (stack_new_mem 5 (List.replicate 16 0)) = ScanResult.oobRead
    ∧ get_used_size (stack_new_mem 4 (List.replicate 16 0))
        = ScanResult.ok ((List.replicate 16 (0 : Nat)).length
            - (8 + (((List.replicate 16 (0 : Nat)).drop 8).takeWhile
                (fun w => w == SENTINEL)).length))
    ∧ ¬ in_alloc_and_guard 1048576 4224
        (scan_read_addr (1048576 + 4096) (List.replicate 16 (0 : Nat)).length) := by
  have h1 := c10_sentinel_tracking 5 (List.replicate 16 0) (by simp)
  have h2 := c10_sentinel_tracking 4 (List.replicate 16 0) (by simp)
  exact ⟨h1.1 (by norm_num), h2.2.1 (by norm_num), h1.2.2.1 (by norm_num),
    h2.2.2.2.1 (by norm_num) (by decide), h1.2.2.2.2 1048576 4096 4224 (by decide)⟩

end Chiya
